import Mathlib

/-!
# immuclient bootstrap (`cmd/immuclient/command/init.go`)

A shallow embedding of `Init`, `options`, `connect`, `disconnect` and
`configureOptions`.  Go pointers that the functions mutate (`cmd`, `o`, the
global viper singleton, the standard error stream) are fields of an explicit
`State`; a function of the source is a `Proc α = State → Outcome α`, where an
outcome is a normal return, a process exit with a status, or a runtime panic.
Go `error` values are `Option Error`, `none` being `nil`.

What the source takes from other packages (viper, pflag, `pkg/client`,
`pkg/gw`, `cmd/helper`) is collected in `Env` and every theorem holds for all
of its values.
-/

namespace Immuclient

/-- A non-nil Go `error`, identified by its message. -/
abbrev Error := String

/-- A configuration value: viper and pflag hold ints, strings and booleans here. -/
inductive Value
  | int (i : Int)
  | str (s : String)
  | bool (b : Bool)
  deriving DecidableEq, Repr

/-! ## `pkg/client` data, as far as `init.go` names it -/

/-- The `client.MTLsOptions` fields set by `options`. -/
structure MTLsOptions where
  Servername : String
  Certificate : String
  Pkey : String
  ClientCAs : String
  deriving DecidableEq, Repr

/-- The `client.Options` fields named in `init.go`; `Rest` stands for every
field of the Go struct that `init.go` never names. -/
structure Options where
  Address : String
  Port : Int
  Auth : Bool
  MTLs : Bool
  TokenFileName : String
  Rest : List (String × Value)
  MTLsOptions : Option MTLsOptions
  deriving DecidableEq, Repr

/-- An open client connection (`client.ImmuClient`, non-nil). -/
structure ImmuClient where
  id : Nat
  deriving DecidableEq, Repr

/-- The `c.PasswordReader` values of `cmd/helper` that `init.go` names. -/
inductive PasswordReader
  | DefaultPasswordReader
  deriving DecidableEq, Repr

/-! ## pflag: the persistent flag set of a command -/

/-- A defined flag: name, one-letter shorthand (`""` when none) and default. -/
structure Flag where
  Name : String
  Shorthand : String
  DefValue : Value
  deriving DecidableEq, Repr

/-- The flags defined on a flag set, in definition order. -/
structure FlagSet where
  formal : List Flag
  deriving DecidableEq, Repr

/-- The flag named `name`, or `none` (Go `nil`) when no such flag is defined. -/
def FlagSet.Lookup (fs : FlagSet) (name : String) : Option Flag :=
  fs.formal.find? (fun f => f.Name == name)

/-- Adds a flag; `none` is pflag's panic on a redefined name, on a shorthand
longer than one character, or on a shorthand already in use. -/
def FlagSet.AddFlag (fs : FlagSet) (f : Flag) : Option FlagSet :=
  if fs.formal.any (fun g => g.Name == f.Name) then none
  else if f.Shorthand.length > 1 then none
  else if f.Shorthand ≠ "" ∧ fs.formal.any (fun g => g.Shorthand == f.Shorthand) then none
  else some ⟨fs.formal ++ [f]⟩

/-! ## State -/

/-- The global viper singleton, as far as `configureOptions` writes it: the
flags bound with `BindPFlag` and the defaults registered with `SetDefault`,
both in call order. -/
structure Viper where
  pflags : List (String × Option Flag)
  defaults : List (String × Value)
  deriving DecidableEq, Repr

/-- A `cobra.Command`: its persistent flags and the subcommands added to it,
each subcommand labelled by the source expression that builds it. -/
structure Command where
  PersistentFlags : FlagSet
  commands : List String
  deriving DecidableEq, Repr

/-- The `c.Options` of `cmd/helper`: only `CfgFn` is used. -/
structure HelperOptions where
  CfgFn : String
  deriving DecidableEq, Repr

/-- The `commandline` struct of `init.go`; pointer and interface fields are
`Option`, `none` being `nil`. -/
structure commandline where
  ImmuClient : Option ImmuClient
  passwordReader : Option PasswordReader
  valueOnly : Bool
  options : Option Options
  deriving DecidableEq, Repr

/-- A call that the code makes, recorded in the order made. -/
inductive Call
  | BindPFlag (key : String) (flag : Option Flag)
  | SetDefault (key : String) (value : Value)
  | options
  | ReadFileFromUserHomeDir (name : String)
  | NewImmuClient (opts : Options)
  | Disconnect (c : ImmuClient)
  deriving DecidableEq, Repr

/-- Everything the functions of `init.go` read or write. -/
structure State where
  cmd : Command
  o : HelperOptions
  viper : Viper
  stderr : List (Option Error)
  calls : List Call
  deriving DecidableEq, Repr

/-- How a function ends: it returns `a`, the process exits with `status`, or
the Go runtime panics. -/
inductive Outcome (α : Type)
  | ret (a : α) (s : State)
  | exit (status : Nat) (s : State)
  | panicked (s : State)
  deriving DecidableEq, Repr

/-- A function of the source, run from a state. -/
abbrev Proc (α : Type) := State → Outcome α

/-- Sequencing: the second step runs only when the first returns. -/
def Proc.andThen {α β : Type} (p : Proc α) (f : α → Proc β) : Proc β := fun s =>
  match p s with
  | .ret a s1 => f a s1
  | .exit n s1 => .exit n s1
  | .panicked s1 => .panicked s1

instance : Monad Proc where
  pure a := fun s => .ret a s
  bind := Proc.andThen

/-- The state in which an outcome leaves the process. -/
def Outcome.state {α : Type} : Outcome α → State
  | .ret _ s => s
  | .exit _ s => s
  | .panicked s => s

/-- Records a call. -/
def record (c : Call) : Proc Unit := fun s =>
  .ret () { s with calls := s.calls ++ [c] }

/-! ## Collaborators outside `init.go` -/

/-- What `init.go` takes from other packages.  `Get*` are viper's typed
lookups on the store, `bindErr` is the error `viper.BindPFlag` returns for a
key and a flag, `ReadFileFromUserHomeDir` and `NewImmuClient` return Go pairs,
`Disconnect` is the client's close.  The default values live in `pkg/gw` and
`pkg/client`.  `quitStatus` is the exit status of `c.QuitToStdErr`. -/
structure Env where
  gwImmudbPort : Int
  gwImmudbAddress : String
  clientAddress : String
  clientPort : Int
  clientAuth : Bool
  clientMTLs : Bool
  clientTokenFileName : String
  clientRest : List (String × Value)
  mtlsServername : String
  mtlsCertificate : String
  mtlsPkey : String
  mtlsClientCAs : String
  GetInt : Viper → String → Int
  GetString : Viper → String → String
  GetBool : Viper → String → Bool
  bindErr : String → Option Flag → Option Error
  ReadFileFromUserHomeDir : String → String × Option Error
  NewImmuClient : Options → Option ImmuClient × Option Error
  Disconnect : ImmuClient → Option Error
  quitStatus : Nat
  quitStatus_ne_zero : quitStatus ≠ 0

/-- Modelled from the spec: `client.DefaultOptions` of `pkg/client` is not in
src/.  The spec (data model) has the nested mutual-TLS options absent unless
mutual TLS is enabled, so the default carries none; the default values of the
other fields are those of the client package, taken from `env`. -/
def DefaultOptions (env : Env) : Options :=
  { Address := env.clientAddress
    Port := env.clientPort
    Auth := env.clientAuth
    MTLs := env.clientMTLs
    TokenFileName := env.clientTokenFileName
    Rest := env.clientRest
    MTLsOptions := none }

/-- Modelled from the spec: `client.DefaultMTLsOptions` of `pkg/client` is not
in src/; its four default values are those of the client package. -/
def DefaultMTLsOptions (env : Env) : MTLsOptions :=
  { Servername := env.mtlsServername
    Certificate := env.mtlsCertificate
    Pkey := env.mtlsPkey
    ClientCAs := env.mtlsClientCAs }

/-- Modelled from the spec: the `With*` setters of `pkg/client` are not in
src/; each stores its argument in the field it is named after and returns the
options (the spec builds the base options from port, address, token file name
and the mutual-TLS switch). -/
def Options.WithPort (o : Options) (port : Int) : Options := { o with Port := port }

/-- Modelled from the spec: setter of `Address`, see `Options.WithPort`. -/
def Options.WithAddress (o : Options) (address : String) : Options :=
  { o with Address := address }

/-- Modelled from the spec: setter of `TokenFileName`, see `Options.WithPort`. -/
def Options.WithTokenFileName (o : Options) (name : String) : Options :=
  { o with TokenFileName := name }

/-- Modelled from the spec: setter of `MTLs`, see `Options.WithPort`. -/
def Options.WithMTLs (o : Options) (mtls : Bool) : Options := { o with MTLs := mtls }

/-- Modelled from the spec: setter of `Servername`; the spec has the built
mutual-TLS fields equal the resolved values. -/
def MTLsOptions.WithServername (m : MTLsOptions) (v : String) : MTLsOptions :=
  { m with Servername := v }

/-- Modelled from the spec: setter of `Certificate`, see `MTLsOptions.WithServername`. -/
def MTLsOptions.WithCertificate (m : MTLsOptions) (v : String) : MTLsOptions :=
  { m with Certificate := v }

/-- Modelled from the spec: setter of `Pkey`, see `MTLsOptions.WithServername`. -/
def MTLsOptions.WithPkey (m : MTLsOptions) (v : String) : MTLsOptions :=
  { m with Pkey := v }

/-- Modelled from the spec: setter of `ClientCAs`, see `MTLsOptions.WithServername`. -/
def MTLsOptions.WithClientCAs (m : MTLsOptions) (v : String) : MTLsOptions :=
  { m with ClientCAs := v }

/-- Modelled from the spec: `c.QuitToStdErr` of `cmd/helper` is not in src/.
The spec has a fatal error reported on the error stream and the process
terminated with a non-zero status. -/
def QuitToStdErr {α : Type} (env : Env) (msg : Option Error) : Proc α := fun s =>
  .exit env.quitStatus { s with stderr := s.stderr ++ [msg] }

/-! ## `options` -/

/-- `viper.GetInt(key)` on the global store. -/
def Viper.GetInt (env : Env) (key : String) : Proc Int := fun s =>
  .ret (env.GetInt s.viper key) s

/-- `viper.GetString(key)` on the global store. -/
def Viper.GetString (env : Env) (key : String) : Proc String := fun s =>
  .ret (env.GetString s.viper key) s

/-- `viper.GetBool(key)` on the global store. -/
def Viper.GetBool (env : Env) (key : String) : Proc Bool := fun s =>
  .ret (env.GetBool s.viper key) s

/-- `options()`: reads eight keys from viper and builds the client options;
the mutual-TLS options are attached only when `mtls` is true. -/
def options (env : Env) : Proc Options := do
  record .options
  let port ← Viper.GetInt env "immudb-port"
  let address ← Viper.GetString env "immudb-address"
  let tokenFileName ← Viper.GetString env "tokenfile"
  let mtls ← Viper.GetBool env "mtls"
  let certificate ← Viper.GetString env "certificate"
  let servername ← Viper.GetString env "servername"
  let pkey ← Viper.GetString env "pkey"
  let clientcas ← Viper.GetString env "clientcas"
  let mut options := (DefaultOptions env)
    |>.WithPort port
    |>.WithAddress address
    |>.WithTokenFileName tokenFileName
    |>.WithMTLs mtls
  if mtls then
    options := { options with
      MTLsOptions := some ((DefaultMTLsOptions env)
        |>.WithServername servername
        |>.WithCertificate certificate
        |>.WithPkey pkey
        |>.WithClientCAs clientcas) }
  return options

/-! ## pflag and viper calls of `configureOptions` -/

/-- Defines a flag on `cmd.PersistentFlags()`; pflag's panic ends the process. -/
def defineFlag (f : Flag) : Proc Unit := fun s =>
  match s.cmd.PersistentFlags.AddFlag f with
  | none => .panicked s
  | some fs => .ret () { s with cmd := { s.cmd with PersistentFlags := fs } }

/-- `cmd.PersistentFlags().IntP(name, shorthand, value, usage)`. -/
def flagIntP (name shorthand : String) (value : Int) : Proc Unit :=
  defineFlag ⟨name, shorthand, .int value⟩

/-- `cmd.PersistentFlags().StringP(name, shorthand, value, usage)`. -/
def flagStringP (name shorthand value : String) : Proc Unit :=
  defineFlag ⟨name, shorthand, .str value⟩

/-- `cmd.PersistentFlags().StringVar(&o.CfgFn, name, value, usage)`: the
variable takes the default, then the flag is defined. -/
def flagStringVarCfgFn (name value : String) : Proc Unit := fun s =>
  defineFlag ⟨name, "", .str value⟩ { s with o := { s.o with CfgFn := value } }

/-- `cmd.PersistentFlags().String(name, value, usage)`. -/
def flagString (name value : String) : Proc Unit :=
  defineFlag ⟨name, "", .str value⟩

/-- `cmd.PersistentFlags().BoolP(name, shorthand, value, usage)`. -/
def flagBoolP (name shorthand : String) (value : Bool) : Proc Unit :=
  defineFlag ⟨name, shorthand, .bool value⟩

/-- `cmd.PersistentFlags().Bool(name, value, usage)`. -/
def flagBool (name : String) (value : Bool) : Proc Unit :=
  defineFlag ⟨name, "", .bool value⟩

/-- `cmd.PersistentFlags().Lookup(name)`. -/
def Lookup (name : String) : Proc (Option Flag) := fun s =>
  .ret (s.cmd.PersistentFlags.Lookup name) s

/-- `viper.BindPFlag(key, flag)`: returns viper's error for the pair, or
registers the binding and returns `nil`. -/
def Viper.BindPFlag (env : Env) (key : String) (flag : Option Flag) : Proc (Option Error) :=
  fun s =>
    let s := { s with calls := s.calls ++ [Call.BindPFlag key flag] }
    match env.bindErr key flag with
    | some err => .ret (some err) s
    | none => .ret none { s with viper := { s.viper with pflags := s.viper.pflags ++ [(key, flag)] } }

/-- `viper.SetDefault(key, value)`. -/
def Viper.SetDefault (key : String) (value : Value) : Proc Unit := fun s =>
  .ret () { s with
    calls := s.calls ++ [Call.SetDefault key value]
    viper := { s.viper with defaults := s.viper.defaults ++ [(key, value)] } }

/-! ## `configureOptions` -/

/-- `configureOptions(cmd, o)`: ten flag definitions, ten bindings each
followed by an early return of its error, ten defaults. -/
def configureOptions (env : Env) : Proc (Option Error) := do
  flagIntP "immudb-port" "p" env.gwImmudbPort
  flagStringP "immudb-address" "a" env.gwImmudbAddress
  flagStringVarCfgFn "config" ""
  flagString "tokenfile" (DefaultOptions env).TokenFileName
  flagBoolP "mtls" "m" (DefaultOptions env).MTLs
  flagString "servername" (DefaultMTLsOptions env).Servername
  flagString "certificate" (DefaultMTLsOptions env).Certificate
  flagString "pkey" (DefaultMTLsOptions env).Pkey
  flagString "clientcas" (DefaultMTLsOptions env).ClientCAs
  flagBool "value-only" false
  if let some err ← Viper.BindPFlag env "immudb-port" (← Lookup "immudb-port") then
    return some err
  if let some err ← Viper.BindPFlag env "immudb-address" (← Lookup "immudb-address") then
    return some err
  if let some err ← Viper.BindPFlag env "auth" (← Lookup "auth") then
    return some err
  if let some err ← Viper.BindPFlag env "tokenfile" (← Lookup "tokenfile") then
    return some err
  if let some err ← Viper.BindPFlag env "mtls" (← Lookup "mtls") then
    return some err
  if let some err ← Viper.BindPFlag env "servername" (← Lookup "servername") then
    return some err
  if let some err ← Viper.BindPFlag env "certificate" (← Lookup "certificate") then
    return some err
  if let some err ← Viper.BindPFlag env "pkey" (← Lookup "pkey") then
    return some err
  if let some err ← Viper.BindPFlag env "clientcas" (← Lookup "clientcas") then
    return some err
  if let some err ← Viper.BindPFlag env "value-only" (← Lookup "value-only") then
    return some err
  Viper.SetDefault "immudb-port" (.int env.gwImmudbPort)
  Viper.SetDefault "immudb-address" (.str env.gwImmudbAddress)
  Viper.SetDefault "auth" (.bool (DefaultOptions env).Auth)
  Viper.SetDefault "tokenfile" (.str (DefaultOptions env).TokenFileName)
  Viper.SetDefault "mtls" (.bool (DefaultOptions env).MTLs)
  Viper.SetDefault "servername" (.str (DefaultMTLsOptions env).Servername)
  Viper.SetDefault "certificate" (.str (DefaultMTLsOptions env).Certificate)
  Viper.SetDefault "pkey" (.str (DefaultMTLsOptions env).Pkey)
  Viper.SetDefault "clientcas" (.str (DefaultMTLsOptions env).ClientCAs)
  Viper.SetDefault "value-only" (.bool false)
  return none

/-! ## `Init`, `connect`, `disconnect` -/

/-- Modelled from the spec: the subcommand constructors (`cl.login`,
`cl.logout`, ... `cl.status`) are in files of the package that are not in
src/.  The spec has each bind one subcommand to the session manager; here each
adds one subcommand, labelled by its constructor, to the root command. -/
def subcommand (label : String) : Proc Unit := fun s =>
  .ret () { s with cmd := { s.cmd with commands := s.cmd.commands ++ [label] } }

/-- `cmd.AddCommand(c)` for the command built by the expression `label`. -/
def AddCommand (label : String) : Proc Unit := fun s =>
  .ret () { s with cmd := { s.cmd with commands := s.cmd.commands ++ [label] } }

/-- `Init(cmd, o)`; the `commandline` it allocates is returned, since the
subcommands keep it. -/
def Init (env : Env) : Proc commandline := do
  if let some err ← configureOptions env then
    QuitToStdErr env (some err)
  let cl : commandline :=
    { ImmuClient := none, passwordReader := none, valueOnly := false, options := none }
  let cl := { cl with passwordReader := some PasswordReader.DefaultPasswordReader }
  let cl := { cl with options := some (← options env) }
  subcommand "login"
  subcommand "logout"
  subcommand "currentRoot"
  subcommand "getByIndex"
  subcommand "getKey"
  subcommand "rawSafeGetKey"
  subcommand "safeGetKey"
  subcommand "rawSafeSet"
  subcommand "set"
  subcommand "safeset"
  subcommand "zAdd"
  subcommand "safeZAdd"
  subcommand "zScan"
  subcommand "iScan"
  subcommand "scan"
  subcommand "count"
  subcommand "reference"
  subcommand "safereference"
  subcommand "inclusion"
  subcommand "consistency"
  subcommand "history"
  subcommand "status"
  AddCommand "man.Generate"
  return cl

/-- `cl.connect(cmd, args)`: returns the updated `cl` and the named result
`err`.  `err` first takes the error of the token-file read and is then
overwritten by the error of `client.NewImmuClient`. -/
def connect (env : Env) (cl : commandline) : Proc (commandline × Option Error) := do
  let opts ← options env
  let (len, err) := env.ReadFileFromUserHomeDir opts.TokenFileName
  record (.ReadFileFromUserHomeDir opts.TokenFileName)
  let opts := if err ≠ none ∨ len = "" then { opts with Auth := false }
    else { opts with Auth := true }
  let (client, err) := env.NewImmuClient opts
  record (.NewImmuClient opts)
  let cl := { cl with ImmuClient := client }
  if err ≠ none ∨ cl.ImmuClient = none then
    QuitToStdErr env err
  let cl := { cl with valueOnly := ← Viper.GetBool env "value-only" }
  return (cl, err)

/-- `os.Exit(code)`. -/
def osExit {α : Type} (code : Nat) : Proc α := fun s => .exit code s

/-- A method call on a nil interface value: the Go runtime panics. -/
def nilDereference {α : Type} : Proc α := fun s => .panicked s

/-- `cl.disconnect(cmd, args)`; calling `Disconnect` on a nil client panics. -/
def disconnect (env : Env) (cl : commandline) : Proc Unit := do
  match cl.ImmuClient with
  | none => nilDereference
  | some c =>
    record (.Disconnect c)
    if let some err := env.Disconnect c then
      QuitToStdErr env (some err)
    osExit 0

/-- A process invocation that runs `Init` and then, when `Init` returns,
`connect` on the `commandline` that `Init` built (`connect` has the signature
of a cobra pre-run hook). -/
def initThenConnect (env : Env) : Proc (commandline × Option Error) := do
  let cl ← Init env
  connect env cl

/-! ## The blocks of `configureOptions`

The three blocks of `configureOptions`, each taking what follows it as a
continuation; `configureOptions_blocks` shows that `configureOptions` is their
composition, by unfolding only. -/

/-- The keys bound by `configureOptions`, in source order (lines 141 to 170). -/
def boundKeys : List String :=
  ["immudb-port", "immudb-address", "auth", "tokenfile", "mtls", "servername", "certificate",
    "pkey", "clientcas", "value-only"]

/-- Lines 126 to 140 of `configureOptions`, followed by `k`. -/
def defineFlagsThen {α : Type} (env : Env) (k : Proc α) : Proc α := do
  flagIntP "immudb-port" "p" env.gwImmudbPort
  flagStringP "immudb-address" "a" env.gwImmudbAddress
  flagStringVarCfgFn "config" ""
  flagString "tokenfile" (DefaultOptions env).TokenFileName
  flagBoolP "mtls" "m" (DefaultOptions env).MTLs
  flagString "servername" (DefaultMTLsOptions env).Servername
  flagString "certificate" (DefaultMTLsOptions env).Certificate
  flagString "pkey" (DefaultMTLsOptions env).Pkey
  flagString "clientcas" (DefaultMTLsOptions env).ClientCAs
  flagBool "value-only" false
  k

/-- Lines 141 to 170 of `configureOptions` for a list of keys, followed by `k`:
each key is looked up and bound, and the first error is returned. -/
def bindFlagsThen (env : Env) : List String → Proc (Option Error) → Proc (Option Error)
  | [], k => k
  | key :: keys, k => do
    if let some err ← Viper.BindPFlag env key (← Lookup key) then
      return some err
    bindFlagsThen env keys k

/-- Lines 172 to 182 of `configureOptions`. -/
def setDefaults (env : Env) : Proc (Option Error) := do
  Viper.SetDefault "immudb-port" (.int env.gwImmudbPort)
  Viper.SetDefault "immudb-address" (.str env.gwImmudbAddress)
  Viper.SetDefault "auth" (.bool (DefaultOptions env).Auth)
  Viper.SetDefault "tokenfile" (.str (DefaultOptions env).TokenFileName)
  Viper.SetDefault "mtls" (.bool (DefaultOptions env).MTLs)
  Viper.SetDefault "servername" (.str (DefaultMTLsOptions env).Servername)
  Viper.SetDefault "certificate" (.str (DefaultMTLsOptions env).Certificate)
  Viper.SetDefault "pkey" (.str (DefaultMTLsOptions env).Pkey)
  Viper.SetDefault "clientcas" (.str (DefaultMTLsOptions env).ClientCAs)
  Viper.SetDefault "value-only" (.bool false)
  return none

/-- The subcommand labels in the order `Init` adds them. -/
def initCommands : List String :=
  ["login", "logout", "currentRoot", "getByIndex", "getKey", "rawSafeGetKey", "safeGetKey",
    "rawSafeSet", "set", "safeset", "zAdd", "safeZAdd", "zScan", "iScan", "scan", "count",
    "reference", "safereference", "inclusion", "consistency", "history", "status",
    "man.Generate"]

/-! ## Concrete inputs -/

/-- The last default registered for `key`, a small stand-in for viper's lookup. -/
def exampleFind (v : Viper) (key : String) : Option Value :=
  (v.defaults.reverse.find? (fun p => p.1 == key)).map (fun p => p.2)

/-- An environment whose viper accepts every binding and resolves a key to its
registered default; the token file `token` holds `abc123`, the file `empty` is
empty, no other file exists; the host `unreachable` refuses the connection;
closing the client with id 0 fails. -/
def exampleEnv : Env :=
  { gwImmudbPort := 3322
    gwImmudbAddress := "127.0.0.1"
    clientAddress := "127.0.0.1"
    clientPort := 3322
    clientAuth := false
    clientMTLs := false
    clientTokenFileName := "token"
    clientRest := [("DialRetries", .int 5)]
    mtlsServername := "localhost"
    mtlsCertificate := "cert.pem"
    mtlsPkey := "key.pem"
    mtlsClientCAs := "ca.pem"
    GetInt := fun v k => match exampleFind v k with
      | some (.int i) => i
      | _ => 0
    GetString := fun v k => match exampleFind v k with
      | some (.str x) => x
      | _ => ""
    GetBool := fun v k => match exampleFind v k with
      | some (.bool b) => b
      | _ => false
    bindErr := fun _ _ => none
    ReadFileFromUserHomeDir := fun name =>
      if name = "token" then ("abc123", none)
      else if name = "empty" then ("", none)
      else ("", some "no such file")
    NewImmuClient := fun opts =>
      if opts.Address = "unreachable" then (none, some "connection refused")
      else (some ⟨1⟩, none)
    Disconnect := fun c => if c.id = 0 then some "close failed" else none
    quitStatus := 1
    quitStatus_ne_zero := Nat.one_ne_zero }

/-- The environment `exampleEnv` with a viper that rejects a nil flag. -/
def strictEnv : Env :=
  { exampleEnv with
    bindErr := fun key flag => if flag.isNone then some ("flag for " ++ key ++ " is nil") else none }

/-- A state with the given registered defaults, no flags and no subcommands. -/
def stateWith (defaults : List (String × Value)) : State :=
  { cmd := ⟨⟨[]⟩, []⟩, o := ⟨""⟩, viper := ⟨[], defaults⟩, stderr := [], calls := [] }

/-- The state of a process before `Init`: a root command without flags or
subcommands and an empty store. -/
def freshState : State := stateWith []

/-- A `commandline` as `new(commandline)` leaves it, with the client `c`. -/
def commandlineWith (c : Option ImmuClient) : commandline :=
  { ImmuClient := c, passwordReader := none, valueOnly := false, options := none }


/-- The keys that `connect` reads from viper: eight through `options` (lines 79
to 86) and `value-only` itself (line 114). -/
def connectKeys : List String :=
  ["immudb-port", "immudb-address", "tokenfile", "mtls", "certificate", "servername", "pkey",
    "clientcas", "value-only"]

/-- The environment `exampleEnv` with gateway defaults that differ from the
defaults of the client package. -/
def gatewayEnv : Env :=
  { exampleEnv with gwImmudbPort := 9999, gwImmudbAddress := "gw.example" }

/-- The `commandline` that `Init` builds in `gatewayEnv` from the fresh state:
its options carry the gateway address and port. -/
def gatewayCommandline : commandline :=
  { ImmuClient := none
    passwordReader := some PasswordReader.DefaultPasswordReader
    valueOnly := false
    options := some
      { Address := "gw.example"
        Port := 9999
        Auth := false
        MTLs := false
        TokenFileName := "token"
        Rest := [("DialRetries", .int 5)]
        MTLsOptions := none } }

/-! ## Unfolding lemmas -/

theorem Proc.bind_apply {α β : Type} (p : Proc α) (f : α → Proc β) (s : State) :
    (p >>= f) s = Proc.andThen p f s := rfl

theorem Proc.pure_apply {α : Type} (a : α) (s : State) :
    (pure a : Proc α) s = .ret a s := rfl

theorem Proc.ite_apply {α : Type} (c : Prop) [Decidable c] (p q : Proc α) (s : State) :
    (if c then p else q) s = if c then p s else q s := by
  split <;> rfl

/-- The value and the state that `options` returns, field by field. -/
theorem options_eq (env : Env) (s : State) : options env s = .ret
    { Address := env.GetString s.viper "immudb-address"
      Port := env.GetInt s.viper "immudb-port"
      Auth := (DefaultOptions env).Auth
      MTLs := env.GetBool s.viper "mtls"
      TokenFileName := env.GetString s.viper "tokenfile"
      Rest := (DefaultOptions env).Rest
      MTLsOptions := if env.GetBool s.viper "mtls" = true then
        some ⟨env.GetString s.viper "servername", env.GetString s.viper "certificate",
          env.GetString s.viper "pkey", env.GetString s.viper "clientcas"⟩
        else (DefaultOptions env).MTLsOptions }
    { s with calls := s.calls ++ [Call.options] } := by
  simp only [options, Proc.bind_apply, Proc.andThen, record, Viper.GetInt, Viper.GetString,
    Viper.GetBool, Proc.ite_apply, Proc.pure_apply]
  split <;> rfl

/-- The outcome of `connect`, given what `options`, the token-file read and
`NewImmuClient` return. -/
theorem connect_eq (env : Env) (cl : commandline) (s s1 : State) (o opts : Options)
    (r : String × Option Error) (n : Option ImmuClient × Option Error)
    (ho : options env s = .ret o s1)
    (hr : env.ReadFileFromUserHomeDir o.TokenFileName = r)
    (hopts : opts = if r.2 ≠ none ∨ r.1 = "" then { o with Auth := false }
      else { o with Auth := true })
    (hn : env.NewImmuClient opts = n) :
    connect env cl s =
      if n.2 ≠ none ∨ n.1 = none then
        .exit env.quitStatus { s1 with
          calls := s1.calls ++ [.ReadFileFromUserHomeDir o.TokenFileName, .NewImmuClient opts]
          stderr := s1.stderr ++ [n.2] }
      else
        .ret ({ cl with ImmuClient := n.1, valueOnly := env.GetBool s1.viper "value-only" }, n.2)
          { s1 with
            calls := s1.calls ++ [.ReadFileFromUserHomeDir o.TokenFileName, .NewImmuClient opts] } := by
  subst hr hn
  simp only [connect, Proc.bind_apply, Proc.andThen, ho, record, Proc.ite_apply,
    Proc.pure_apply, QuitToStdErr, Viper.GetBool, ← hopts, List.append_assoc, List.singleton_append]

/-- The outcome of `connect` with its intermediate values named. -/
theorem connect_cases (env : Env) (cl : commandline) (s : State) :
    ∃ o s1 opts n, options env s = .ret o s1 ∧
      s1 = { s with calls := s.calls ++ [Call.options] } ∧
      (opts = if (env.ReadFileFromUserHomeDir o.TokenFileName).2 ≠ none ∨
          (env.ReadFileFromUserHomeDir o.TokenFileName).1 = "" then { o with Auth := false }
        else { o with Auth := true }) ∧
      env.NewImmuClient opts = n ∧
      connect env cl s =
        if n.2 ≠ none ∨ n.1 = none then
          .exit env.quitStatus { s1 with
            calls := s1.calls ++ [.ReadFileFromUserHomeDir o.TokenFileName, .NewImmuClient opts]
            stderr := s1.stderr ++ [n.2] }
        else
          .ret ({ cl with ImmuClient := n.1, valueOnly := env.GetBool s1.viper "value-only" }, n.2)
            { s1 with
              calls := s1.calls ++
                [.ReadFileFromUserHomeDir o.TokenFileName, .NewImmuClient opts] } :=
  ⟨_, _, _, _, options_eq env s, rfl, rfl, rfl,
    connect_eq env cl s _ _ _ _ _ (options_eq env s) rfl rfl rfl⟩

/-- The outcome of `disconnect` on an open client. -/
theorem disconnect_eq (env : Env) (cl : commandline) (c : ImmuClient) (s : State)
    (hc : cl.ImmuClient = some c) :
    disconnect env cl s =
      match env.Disconnect c with
      | some err => .exit env.quitStatus { s with
          calls := s.calls ++ [.Disconnect c], stderr := s.stderr ++ [some err] }
      | none => .exit 0 { s with calls := s.calls ++ [.Disconnect c] } := by
  simp only [disconnect, hc, Proc.bind_apply, Proc.andThen, record, osExit]
  cases h : env.Disconnect c <;>
    simp [Proc.bind_apply, Proc.andThen, Proc.pure_apply, QuitToStdErr, osExit]

/-! ## `configureOptions` and `Init`, block by block -/

/-- The function `configureOptions` is the composition of its three blocks. -/
theorem configureOptions_blocks (env : Env) :
    configureOptions env = defineFlagsThen env (bindFlagsThen env boundKeys (setDefaults env)) :=
  rfl

theorem defineFlag_bind {α : Type} (f : Flag) (k : Unit → Proc α) (s : State) :
    (defineFlag f >>= k) s =
      match s.cmd.PersistentFlags.AddFlag f with
      | none => .panicked s
      | some fs => k () { s with cmd := { s.cmd with PersistentFlags := fs } } := by
  simp only [Proc.bind_apply, Proc.andThen, defineFlag]
  cases s.cmd.PersistentFlags.AddFlag f <;> rfl

theorem flagStringVarCfgFn_bind {α : Type} (name value : String) (k : Unit → Proc α)
    (s : State) :
    (flagStringVarCfgFn name value >>= k) s =
      match s.cmd.PersistentFlags.AddFlag ⟨name, "", .str value⟩ with
      | none => .panicked { s with o := { s.o with CfgFn := value } }
      | some fs => k () { s with
          cmd := { s.cmd with PersistentFlags := fs }, o := { s.o with CfgFn := value } } := by
  simp only [Proc.bind_apply, Proc.andThen, flagStringVarCfgFn, defineFlag]
  cases s.cmd.PersistentFlags.AddFlag ⟨name, "", .str value⟩ <;> rfl

/-- The flag definitions either panic or hand over to what follows a state
that differs from the initial one in the flag set and in `o.CfgFn` only. -/
theorem defineFlagsThen_cases {α : Type} (env : Env) (k : Proc α) (s : State) :
    (∃ s1, defineFlagsThen env k s = .panicked s1) ∨
    ∃ fs, defineFlagsThen env k s =
      k { s with cmd := { s.cmd with PersistentFlags := fs }, o := { s.o with CfgFn := "" } } := by
  simp only [defineFlagsThen, flagIntP, flagStringP, flagString, flagBoolP, flagBool,
    defineFlag_bind, flagStringVarCfgFn_bind]
  repeat' split
  all_goals first
    | exact Or.inl ⟨_, rfl⟩
    | exact Or.inr ⟨_, rfl⟩

/-- One binding step: the lookup, the call of `BindPFlag`, and either the early
return of its error or the remaining bindings. -/
theorem bindFlagsThen_cons (env : Env) (key : String) (keys : List String)
    (k : Proc (Option Error)) (s : State) :
    bindFlagsThen env (key :: keys) k s =
      match env.bindErr key (s.cmd.PersistentFlags.Lookup key) with
      | some err => .ret (some err) { s with
          calls := s.calls ++ [Call.BindPFlag key (s.cmd.PersistentFlags.Lookup key)] }
      | none => bindFlagsThen env keys k { s with
          calls := s.calls ++ [Call.BindPFlag key (s.cmd.PersistentFlags.Lookup key)]
          viper := { s.viper with
            pflags := s.viper.pflags ++ [(key, s.cmd.PersistentFlags.Lookup key)] } } := by
  simp only [bindFlagsThen, Proc.bind_apply, Proc.andThen, Lookup, Viper.BindPFlag]
  cases env.bindErr key (s.cmd.PersistentFlags.Lookup key) <;> rfl

/-- When the bindings of `pre` succeed and that of `key` fails, the error of
`key` is returned; only `pre` and `key` have been tried, only `pre` is bound,
and what follows the bindings does not run. -/
theorem bindFlagsThen_first_failure (env : Env) (k : Proc (Option Error)) (key : String)
    (e : Error) (post : List String) :
    ∀ (pre : List String) (s : State),
      (∀ k1 ∈ pre, env.bindErr k1 (s.cmd.PersistentFlags.Lookup k1) = none) →
      env.bindErr key (s.cmd.PersistentFlags.Lookup key) = some e →
      bindFlagsThen env (pre ++ key :: post) k s = .ret (some e) { s with
        calls := s.calls ++ (pre ++ [key]).map
          (fun k1 => Call.BindPFlag k1 (s.cmd.PersistentFlags.Lookup k1))
        viper := { s.viper with
          pflags := s.viper.pflags ++ pre.map
            (fun k1 => (k1, s.cmd.PersistentFlags.Lookup k1)) } } := by
  intro pre
  induction pre with
  | nil =>
    intro s _ hk
    rw [List.nil_append, bindFlagsThen_cons, hk]
    simp
  | cons a pre ih =>
    intro s hpre hk
    have ha : env.bindErr a (s.cmd.PersistentFlags.Lookup a) = none :=
      hpre a (List.mem_cons_self a pre)
    rw [List.cons_append, bindFlagsThen_cons, ha]
    have h := ih { s with
      calls := s.calls ++ [Call.BindPFlag a (s.cmd.PersistentFlags.Lookup a)]
      viper := { s.viper with
        pflags := s.viper.pflags ++ [(a, s.cmd.PersistentFlags.Lookup a)] } }
      (fun k1 h1 => hpre k1 (List.mem_cons_of_mem a h1)) hk
    simp only [] at h ⊢
    rw [h]
    simp

/-- The ten defaults: the calls and the store entries they add. -/
theorem setDefaults_eq (env : Env) (s : State) :
    setDefaults env s = .ret none { s with
      calls := s.calls ++
        [Call.SetDefault "immudb-port" (.int env.gwImmudbPort),
          Call.SetDefault "immudb-address" (.str env.gwImmudbAddress),
          Call.SetDefault "auth" (.bool (DefaultOptions env).Auth),
          Call.SetDefault "tokenfile" (.str (DefaultOptions env).TokenFileName),
          Call.SetDefault "mtls" (.bool (DefaultOptions env).MTLs),
          Call.SetDefault "servername" (.str (DefaultMTLsOptions env).Servername),
          Call.SetDefault "certificate" (.str (DefaultMTLsOptions env).Certificate),
          Call.SetDefault "pkey" (.str (DefaultMTLsOptions env).Pkey),
          Call.SetDefault "clientcas" (.str (DefaultMTLsOptions env).ClientCAs),
          Call.SetDefault "value-only" (.bool false)]
      viper := { s.viper with
        defaults := s.viper.defaults ++
          [("immudb-port", .int env.gwImmudbPort),
            ("immudb-address", .str env.gwImmudbAddress),
            ("auth", .bool (DefaultOptions env).Auth),
            ("tokenfile", .str (DefaultOptions env).TokenFileName),
            ("mtls", .bool (DefaultOptions env).MTLs),
            ("servername", .str (DefaultMTLsOptions env).Servername),
            ("certificate", .str (DefaultMTLsOptions env).Certificate),
            ("pkey", .str (DefaultMTLsOptions env).Pkey),
            ("clientcas", .str (DefaultMTLsOptions env).ClientCAs),
            ("value-only", .bool false)] } } := by
  simp [setDefaults, Viper.SetDefault, Proc.bind_apply, Proc.andThen, Proc.pure_apply]

/-- Bindings and defaults never panic or exit, leave the command and the error
stream alone, and make no call of `options`. -/
theorem bindFlagsThen_setDefaults_frame (env : Env) :
    ∀ (keys : List String) (s : State),
      ∃ r s1, bindFlagsThen env keys (setDefaults env) s = .ret r s1 ∧
        s1.cmd = s.cmd ∧ s1.o = s.o ∧ s1.stderr = s.stderr ∧
        s1.calls.count Call.options = s.calls.count Call.options := by
  intro keys
  induction keys with
  | nil =>
    intro s
    rw [bindFlagsThen, setDefaults_eq]
    exact ⟨_, _, rfl, rfl, rfl, rfl, by simp [List.count_cons]⟩
  | cons a keys ih =>
    intro s
    rw [bindFlagsThen_cons]
    cases env.bindErr a (s.cmd.PersistentFlags.Lookup a) with
    | some err => exact ⟨_, _, rfl, rfl, rfl, rfl, by simp⟩
    | none =>
      obtain ⟨r, s1, h, h1, h2, h3, h4⟩ := ih { s with
        calls := s.calls ++ [Call.BindPFlag a (s.cmd.PersistentFlags.Lookup a)]
        viper := { s.viper with
          pflags := s.viper.pflags ++ [(a, s.cmd.PersistentFlags.Lookup a)] } }
      refine ⟨r, s1, h, h1, h2, h3, ?_⟩
      rw [h4]
      simp

/-- The outcome of `Init` for each outcome of `configureOptions`. -/
theorem Init_of_error (env : Env) (s s1 : State) (e : Error)
    (h : configureOptions env s = .ret (some e) s1) :
    Init env s = .exit env.quitStatus { s1 with stderr := s1.stderr ++ [some e] } := by
  simp only [Init, Proc.bind_apply, Proc.andThen, h, QuitToStdErr]

theorem Init_of_ok (env : Env) (s s1 : State) (h : configureOptions env s = .ret none s1) :
    ∃ o s2, options env s1 = .ret o s2 ∧
      Init env s = .ret
        { ImmuClient := none, passwordReader := some PasswordReader.DefaultPasswordReader,
          valueOnly := false, options := some o }
        { s1 with
          calls := s1.calls ++ [Call.options]
          cmd := { s1.cmd with commands := s1.cmd.commands ++ initCommands } } := by
  refine ⟨_, _, options_eq env s1, ?_⟩
  simp only [Init, Proc.bind_apply, Proc.andThen, h, Proc.pure_apply, options_eq, subcommand,
    AddCommand, initCommands, List.append_assoc, List.singleton_append, List.cons_append,
    List.nil_append]

theorem Init_of_panicked (env : Env) (s s1 : State) (h : configureOptions env s = .panicked s1) :
    Init env s = .panicked s1 := by
  simp only [Init, Proc.bind_apply, Proc.andThen, h]

theorem Init_of_exit (env : Env) (s s1 : State) (n : Nat)
    (h : configureOptions env s = .exit n s1) :
    Init env s = .exit n s1 := by
  simp only [Init, Proc.bind_apply, Proc.andThen, h]

/-- On the fresh state the ten definitions succeed and define exactly the ten
flags of lines 126 to 140. -/
theorem defineFlagsThen_fresh {α : Type} (env : Env) (k : Proc α) :
    defineFlagsThen env k freshState = k { freshState with
      cmd := ⟨⟨[⟨"immudb-port", "p", .int env.gwImmudbPort⟩,
        ⟨"immudb-address", "a", .str env.gwImmudbAddress⟩,
        ⟨"config", "", .str ""⟩,
        ⟨"tokenfile", "", .str (DefaultOptions env).TokenFileName⟩,
        ⟨"mtls", "m", .bool (DefaultOptions env).MTLs⟩,
        ⟨"servername", "", .str (DefaultMTLsOptions env).Servername⟩,
        ⟨"certificate", "", .str (DefaultMTLsOptions env).Certificate⟩,
        ⟨"pkey", "", .str (DefaultMTLsOptions env).Pkey⟩,
        ⟨"clientcas", "", .str (DefaultMTLsOptions env).ClientCAs⟩,
        ⟨"value-only", "", .bool false⟩]⟩, []⟩ } :=
  rfl

/-- What a returning `configureOptions` leaves unchanged. -/
theorem configureOptions_frame (env : Env) (s s1 : State) (r : Option Error)
    (h : configureOptions env s = .ret r s1) :
    s1.stderr = s.stderr ∧ s1.cmd.commands = s.cmd.commands ∧
      s1.calls.count Call.options = s.calls.count Call.options := by
  rw [configureOptions_blocks] at h
  rcases defineFlagsThen_cases env (bindFlagsThen env boundKeys (setDefaults env)) s with
    ⟨s2, hp⟩ | ⟨fs, hd⟩
  · rw [hp] at h
    cases h
  · obtain ⟨r2, s2, hr, hcmd, -, hstderr, hcount⟩ := bindFlagsThen_setDefaults_frame env boundKeys
      { s with cmd := { s.cmd with PersistentFlags := fs }, o := { s.o with CfgFn := "" } }
    rw [hd, hr] at h
    injection h with h1 h2
    subst h2
    exact ⟨hstderr, by rw [hcmd], hcount⟩

/-! ## `connect` and the token file -/

/-- C1: `connect` makes one call of `client.NewImmuClient`, after one call of
`options` and one read of the token file named by the built options, and the
`Auth` field of the options it passes is true if and only if that read returned
no error and a non-empty string; it is false when the read fails and false when
the read succeeds with empty content. -/
theorem connect_auth_iff_token (env : Env) (cl : commandline) (s : State) :
    ∃ o s1 opts, options env s = .ret o s1 ∧
      (connect env cl s).state.calls = s.calls ++
        [Call.options, Call.ReadFileFromUserHomeDir o.TokenFileName, Call.NewImmuClient opts] ∧
      (opts.Auth = true ↔
        (env.ReadFileFromUserHomeDir o.TokenFileName).2 = none ∧
          (env.ReadFileFromUserHomeDir o.TokenFileName).1 ≠ "") ∧
      ((env.ReadFileFromUserHomeDir o.TokenFileName).2 ≠ none → opts.Auth = false) ∧
      ((env.ReadFileFromUserHomeDir o.TokenFileName).1 = "" → opts.Auth = false) := by
  obtain ⟨o, s1, opts, n, ho, hs1, hopts, -, hc⟩ := connect_cases env cl s
  refine ⟨o, s1, opts, ho, ?_, ?_, ?_, ?_⟩
  · rw [hc, hs1]
    by_cases hn : n.2 ≠ none ∨ n.1 = none
    · rw [if_pos hn]
      simp [Outcome.state]
    · rw [if_neg hn]
      simp [Outcome.state]
  · rw [hopts]
    by_cases h : (env.ReadFileFromUserHomeDir o.TokenFileName).2 ≠ none ∨
        (env.ReadFileFromUserHomeDir o.TokenFileName).1 = ""
    · rw [if_pos h]
      simp only [Bool.false_eq_true, false_iff, not_and, not_not]
      intro h1
      rcases h with h | h
      · exact absurd h1 h
      · exact h
    · rw [if_neg h]
      simp only [true_iff]
      push_neg at h
      exact h
  · intro h
    rw [hopts, if_pos (Or.inl h)]
  · intro h
    rw [hopts, if_pos (Or.inr h)]

/-! ## `options` -/

/-- C2: when the resolved `mtls` value is false, `options` returns options
without mutual-TLS options: the field is absent, as `client.DefaultOptions`
left it, whatever the resolved servername, certificate, pkey and clientcas. -/
theorem options_mtls_off_absent (env : Env) (s : State)
    (h : env.GetBool s.viper "mtls" = false) :
    ∃ o s1, options env s = .ret o s1 ∧ o.MTLsOptions = none ∧
      o.MTLsOptions = (DefaultOptions env).MTLsOptions := by
  refine ⟨_, _, options_eq env s, ?_, ?_⟩ <;> simp [h, DefaultOptions]

/-- C2 at a store whose `mtls` resolves to false and whose four mutual-TLS
keys resolve to non-empty strings. -/
theorem options_mtls_off_absent_witness :
    exampleEnv.GetBool (stateWith [("mtls", .bool false), ("servername", .str "node1"),
        ("certificate", .str "c"), ("pkey", .str "k"), ("clientcas", .str "ca")]).viper
      "mtls" = false ∧
    ∃ o s1, options exampleEnv (stateWith [("mtls", .bool false), ("servername", .str "node1"),
        ("certificate", .str "c"), ("pkey", .str "k"), ("clientcas", .str "ca")]) = .ret o s1 ∧
      o.MTLsOptions = none ∧ o.MTLsOptions = (DefaultOptions exampleEnv).MTLsOptions :=
  ⟨by decide, options_mtls_off_absent exampleEnv _ (by decide)⟩

/-- C3: when the resolved `mtls` value is true, `options` returns options whose
mutual-TLS options hold exactly the resolved `servername`, `certificate`,
`pkey` and `clientcas` strings in the fields of the same names. -/
theorem options_mtls_on_fields (env : Env) (s : State)
    (h : env.GetBool s.viper "mtls" = true) :
    ∃ o s1, options env s = .ret o s1 ∧
      o.MTLsOptions = some
        { Servername := env.GetString s.viper "servername"
          Certificate := env.GetString s.viper "certificate"
          Pkey := env.GetString s.viper "pkey"
          ClientCAs := env.GetString s.viper "clientcas" } := by
  refine ⟨_, _, options_eq env s, ?_⟩
  simp [h]

/-- C3 at a store whose `mtls` resolves to true and whose four mutual-TLS keys
resolve to four different strings. -/
theorem options_mtls_on_fields_witness :
    ∃ o s1, options exampleEnv (stateWith [("mtls", .bool true), ("servername", .str "node1"),
        ("certificate", .str "c"), ("pkey", .str "k"), ("clientcas", .str "ca")]) = .ret o s1 ∧
      o.MTLsOptions = some
        { Servername := "node1", Certificate := "c", Pkey := "k", ClientCAs := "ca" } :=
  options_mtls_on_fields exampleEnv (stateWith [("mtls", .bool true), ("servername", .str "node1"),
        ("certificate", .str "c"), ("pkey", .str "k"), ("clientcas", .str "ca")]) (by decide)

/-- C4: `options` always returns; the options it returns have `Port`,
`Address`, `TokenFileName` and `MTLs` equal to the resolved `immudb-port`,
`immudb-address`, `tokenfile` and `mtls`; `Auth` and the fields that `init.go`
never names keep the value of `client.DefaultOptions`; the only call recorded
is that of `options` itself (no token-file read) and nothing else in the state
changes. -/
theorem options_base_fields (env : Env) (s : State) :
    ∃ o, options env s = .ret o { s with calls := s.calls ++ [Call.options] } ∧
      o.Port = env.GetInt s.viper "immudb-port" ∧
      o.Address = env.GetString s.viper "immudb-address" ∧
      o.TokenFileName = env.GetString s.viper "tokenfile" ∧
      o.MTLs = env.GetBool s.viper "mtls" ∧
      o.Auth = (DefaultOptions env).Auth ∧
      o.Rest = (DefaultOptions env).Rest :=
  ⟨_, options_eq env s, rfl, rfl, rfl, rfl, rfl, rfl⟩

/-! ## `connect` and `disconnect`: how the process ends -/

/-- C5: `connect` calls `client.NewImmuClient` once and never panics; it exits
through `c.QuitToStdErr` (non-zero status, the error of `NewImmuClient` on the
error stream) if and only if `client.NewImmuClient` returns an error or a nil
client, whatever the token-file read returned; otherwise it returns, and then
the returned error is nil, `cl.ImmuClient` is the non-nil client and
`cl.valueOnly` is the resolved `value-only`. -/
theorem connect_fatal_iff_client_fails (env : Env) (cl : commandline) (s : State) :
    ∃ name opts,
      (connect env cl s).state.calls = s.calls ++
        [Call.options, Call.ReadFileFromUserHomeDir name, Call.NewImmuClient opts] ∧
      ((∃ s2, connect env cl s = .exit env.quitStatus s2 ∧
          s2.stderr = s.stderr ++ [(env.NewImmuClient opts).2]) ↔
        ((env.NewImmuClient opts).2 ≠ none ∨ (env.NewImmuClient opts).1 = none)) ∧
      env.quitStatus ≠ 0 ∧
      (¬ ((env.NewImmuClient opts).2 ≠ none ∨ (env.NewImmuClient opts).1 = none) →
        ∃ c s2, (env.NewImmuClient opts).1 = some c ∧
          connect env cl s = .ret
            ({ cl with ImmuClient := some c, valueOnly := env.GetBool s.viper "value-only" },
              none) s2) ∧
      (∀ cl1 err s2, connect env cl s = .ret (cl1, err) s2 →
        err = none ∧ cl1.ImmuClient ≠ none ∧ cl1.ImmuClient = (env.NewImmuClient opts).1 ∧
          cl1.valueOnly = env.GetBool s.viper "value-only") ∧
      (∀ s2, connect env cl s ≠ .panicked s2) := by
  obtain ⟨o, s1, opts, n, -, hs1, -, hn, hc⟩ := connect_cases env cl s
  subst hs1 hn
  refine ⟨o.TokenFileName, opts, ?_, ?_, env.quitStatus_ne_zero, ?_, ?_, ?_⟩
  · rw [hc]
    by_cases hn : (env.NewImmuClient opts).2 ≠ none ∨ (env.NewImmuClient opts).1 = none
    · rw [if_pos hn]
      simp [Outcome.state]
    · rw [if_neg hn]
      simp [Outcome.state]
  · rw [hc]
    constructor
    · rintro ⟨s2, h, -⟩
      by_contra hn
      rw [if_neg hn] at h
      cases h
    · intro hn
      rw [if_pos hn]
      exact ⟨_, rfl, rfl⟩
  · intro hn
    rw [hc, if_neg hn]
    push_neg at hn
    obtain ⟨c, hcl⟩ := Option.ne_none_iff_exists'.mp hn.2
    rw [hn.1, hcl]
    exact ⟨c, _, rfl, rfl⟩
  · intro cl1 err s2 h
    rw [hc] at h
    by_cases hn : (env.NewImmuClient opts).2 ≠ none ∨ (env.NewImmuClient opts).1 = none
    · rw [if_pos hn] at h
      cases h
    · rw [if_neg hn] at h
      push_neg at hn
      injection h with h1 h2
      injection h1 with h3 h4
      subst h3 h4
      exact ⟨hn.1, hn.2, rfl, rfl⟩
  · intro s2 h
    rw [hc] at h
    by_cases hn : (env.NewImmuClient opts).2 ≠ none ∨ (env.NewImmuClient opts).1 = none
    · rw [if_pos hn] at h
      cases h
    · rw [if_neg hn] at h
      cases h

/-- C6: on a connected session `disconnect` does not return: it calls
`Disconnect` on the client once and the process exits, with status 0 if and
only if the close returned no error; when the close returned an error, that
error is written to the error stream and the status is the non-zero status of
`c.QuitToStdErr`. -/
theorem disconnect_exits (env : Env) (cl : commandline) (c : ImmuClient) (s : State)
    (hc : cl.ImmuClient = some c) :
    ∃ n s1, disconnect env cl s = .exit n s1 ∧
      s1.calls = s.calls ++ [Call.Disconnect c] ∧
      (n = 0 ↔ env.Disconnect c = none) ∧
      (env.Disconnect c = none → s1.stderr = s.stderr) ∧
      (∀ err, env.Disconnect c = some err →
        n = env.quitStatus ∧ n ≠ 0 ∧ s1.stderr = s.stderr ++ [some err]) := by
  rw [disconnect_eq env cl c s hc]
  cases h : env.Disconnect c with
  | none => exact ⟨_, _, rfl, rfl, by simp, by simp, by simp⟩
  | some err =>
    refine ⟨_, _, rfl, rfl, ?_, by simp, ?_⟩
    · simp [env.quitStatus_ne_zero]
    · intro err1 h1
      cases h1
      exact ⟨rfl, env.quitStatus_ne_zero, rfl⟩

/-- C6 at a client whose close fails: the process exits with status 1. -/
theorem disconnect_exits_witness :
    ∃ n s1, disconnect exampleEnv (commandlineWith (some ⟨0⟩)) freshState = .exit n s1 ∧
      s1.calls = freshState.calls ++ [Call.Disconnect ⟨0⟩] ∧
      (n = 0 ↔ exampleEnv.Disconnect ⟨0⟩ = none) ∧
      (exampleEnv.Disconnect ⟨0⟩ = none → s1.stderr = freshState.stderr) ∧
      (∀ err, exampleEnv.Disconnect ⟨0⟩ = some err →
        n = exampleEnv.quitStatus ∧ n ≠ 0 ∧ s1.stderr = freshState.stderr ++ [some err]) :=
  disconnect_exits exampleEnv (commandlineWith (some ⟨0⟩)) ⟨0⟩ freshState rfl

/-! ## Flag binding -/

/-- C7: when `configureOptions` reaches its bindings (the flag definitions do
not panic) and the binding of `k` is the first in source order to fail, with
error `e`, then `configureOptions` returns `e`; the calls it made are the
bindings up to and including `k` and nothing else, so no later binding is tried
and no default is registered; the bound keys are those before `k`; and `Init`
exits with the non-zero status of `c.QuitToStdErr` in that same state plus the
error message, so without a call of `options`, without a subcommand added and
without a call of `client.NewImmuClient`. -/
theorem configureOptions_first_failure (env : Env) (s : State) (pre post : List String)
    (k : String) (e : Error)
    (hret : ∃ r s1, configureOptions env s = .ret r s1)
    (hkeys : boundKeys = pre ++ k :: post)
    (hpre : ∀ k1 ∈ pre,
      env.bindErr k1 ((configureOptions env s).state.cmd.PersistentFlags.Lookup k1) = none)
    (hk : env.bindErr k ((configureOptions env s).state.cmd.PersistentFlags.Lookup k) = some e) :
    ∃ s1, configureOptions env s = .ret (some e) s1 ∧
      s1.calls = s.calls ++ (pre ++ [k]).map
        (fun k1 => Call.BindPFlag k1 (s1.cmd.PersistentFlags.Lookup k1)) ∧
      s1.viper.pflags = s.viper.pflags ++ pre.map
        (fun k1 => (k1, s1.cmd.PersistentFlags.Lookup k1)) ∧
      s1.viper.defaults = s.viper.defaults ∧
      s1.cmd.commands = s.cmd.commands ∧
      s1.stderr = s.stderr ∧
      Init env s = .exit env.quitStatus { s1 with stderr := s.stderr ++ [some e] } ∧
      env.quitStatus ≠ 0 := by
  obtain ⟨r, s1, hr⟩ := hret
  have hb := configureOptions_blocks env
  rcases defineFlagsThen_cases env (bindFlagsThen env boundKeys (setDefaults env)) s with
    ⟨s2, hp⟩ | ⟨fs, hd⟩
  · rw [hb, hp] at hr
    cases hr
  · obtain ⟨r2, s2, hr2, hcmd, -⟩ := bindFlagsThen_setDefaults_frame env boundKeys
      { s with cmd := { s.cmd with PersistentFlags := fs }, o := { s.o with CfgFn := "" } }
    have hstate : (configureOptions env s).state.cmd.PersistentFlags = fs := by
      rw [hb, hd, hr2]
      simp [Outcome.state, hcmd]
    rw [hstate] at hpre hk
    have hfail := bindFlagsThen_first_failure env (setDefaults env) k e post pre
      { s with cmd := { s.cmd with PersistentFlags := fs }, o := { s.o with CfgFn := "" } }
      hpre hk
    rw [← hkeys, ← hd, ← hb] at hfail
    refine ⟨_, hfail, rfl, rfl, rfl, rfl, rfl, ?_, env.quitStatus_ne_zero⟩
    rw [Init_of_error env s _ e hfail]

/-- C7 on a fresh command with a viper that rejects a nil flag: the binding of
`auth` is the first to fail and `Init` exits with status 1. -/
theorem configureOptions_first_failure_witness :
    ∃ s1, configureOptions strictEnv freshState = .ret (some "flag for auth is nil") s1 ∧
      s1.calls = freshState.calls ++ (["immudb-port", "immudb-address"] ++ ["auth"]).map
        (fun k1 => Call.BindPFlag k1 (s1.cmd.PersistentFlags.Lookup k1)) ∧
      s1.viper.pflags = freshState.viper.pflags ++ ["immudb-port", "immudb-address"].map
        (fun k1 => (k1, s1.cmd.PersistentFlags.Lookup k1)) ∧
      s1.viper.defaults = freshState.viper.defaults ∧
      s1.cmd.commands = freshState.cmd.commands ∧
      s1.stderr = freshState.stderr ∧
      Init strictEnv freshState = .exit strictEnv.quitStatus
        { s1 with stderr := freshState.stderr ++ [some "flag for auth is nil"] } ∧
      strictEnv.quitStatus ≠ 0 :=
  configureOptions_first_failure strictEnv freshState ["immudb-port", "immudb-address"]
    ["tokenfile", "mtls", "servername", "certificate", "pkey", "clientcas", "value-only"]
    "auth" "flag for auth is nil" ⟨_, _, rfl⟩ rfl (by decide) (by decide)

/-! ## The `auth` key -/

/-- C8: take two runs of `connect`, each with its own environment, store and
`commandline`.  When the stores resolve the nine keys that `connect` reads,
none of which is `auth` in any letter case, to the same values and the two
token-file reads return the same result, both runs read the same token file
and pass to
`client.NewImmuClient` options with the same `Auth`, `Port`, `Address`,
`TokenFileName`, `MTLs` and mutual-TLS options.  In the same environment and
with the same `commandline` the two options are equal and the two runs return
the same values and exit with the same status.  Nothing is assumed about what
`auth`, in any spelling, resolves to. -/
theorem connect_auth_ignores_auth_key (env1 env2 : Env) (cl1 cl2 : commandline)
    (s1 s2 : State)
    (hagree : ∀ k ∈ connectKeys,
      env1.GetInt s1.viper k = env2.GetInt s2.viper k ∧
      env1.GetString s1.viper k = env2.GetString s2.viper k ∧
      env1.GetBool s1.viper k = env2.GetBool s2.viper k)
    (hread : env1.ReadFileFromUserHomeDir (env1.GetString s1.viper "tokenfile") =
      env2.ReadFileFromUserHomeDir (env2.GetString s2.viper "tokenfile")) :
    "auth" ∉ connectKeys ∧
    (∀ k ∈ connectKeys, k.data.map Char.toLower ≠ "auth".data) ∧
    ∃ name o1 o2,
      (connect env1 cl1 s1).state.calls = s1.calls ++
        [Call.options, Call.ReadFileFromUserHomeDir name, Call.NewImmuClient o1] ∧
      (connect env2 cl2 s2).state.calls = s2.calls ++
        [Call.options, Call.ReadFileFromUserHomeDir name, Call.NewImmuClient o2] ∧
      o1.Auth = o2.Auth ∧ o1.Port = o2.Port ∧ o1.Address = o2.Address ∧
      o1.TokenFileName = o2.TokenFileName ∧ o1.MTLs = o2.MTLs ∧
      o1.MTLsOptions = o2.MTLsOptions ∧
      (env1 = env2 → o1 = o2) ∧
      (env1 = env2 → cl1 = cl2 →
        (∀ r, (∃ t, connect env1 cl1 s1 = .ret r t) ↔ (∃ t, connect env2 cl2 s2 = .ret r t)) ∧
        (∀ n, (∃ t, connect env1 cl1 s1 = .exit n t) ↔
          (∃ t, connect env2 cl2 s2 = .exit n t))) := by
  have key : ∀ (env : Env) (cl : commandline) (s : State), ∃ sent,
      (connect env cl s).state.calls = s.calls ++
        [Call.options, Call.ReadFileFromUserHomeDir (env.GetString s.viper "tokenfile"),
          Call.NewImmuClient sent] ∧
      sent =
            { Address := env.GetString s.viper "immudb-address"
              Port := env.GetInt s.viper "immudb-port"
              Auth := decide ((env.ReadFileFromUserHomeDir
                  (env.GetString s.viper "tokenfile")).2 = none ∧
                (env.ReadFileFromUserHomeDir (env.GetString s.viper "tokenfile")).1 ≠ "")
              MTLs := env.GetBool s.viper "mtls"
              TokenFileName := env.GetString s.viper "tokenfile"
              Rest := (DefaultOptions env).Rest
              MTLsOptions := if env.GetBool s.viper "mtls" = true then
                some ⟨env.GetString s.viper "servername", env.GetString s.viper "certificate",
                  env.GetString s.viper "pkey", env.GetString s.viper "clientcas"⟩
                else none } ∧
      (∀ r, (∃ t, connect env cl s = .ret r t) ↔
        (¬ ((env.NewImmuClient sent).2 ≠ none ∨ (env.NewImmuClient sent).1 = none) ∧
          r = ({ cl with ImmuClient := (env.NewImmuClient sent).1,
                         valueOnly := env.GetBool s.viper "value-only" },
            (env.NewImmuClient sent).2))) ∧
      (∀ n, (∃ t, connect env cl s = .exit n t) ↔
        (((env.NewImmuClient sent).2 ≠ none ∨ (env.NewImmuClient sent).1 = none) ∧
          n = env.quitStatus)) := by
    intro env cl s
    obtain ⟨o, s0, opts, n, ho, hs0, hopts, hn, hconn⟩ := connect_cases env cl s
    rw [options_eq] at ho
    injection ho with ho1 ho2
    subst ho1 hn hs0
    have hcalls : (connect env cl s).state.calls = s.calls ++
        [Call.options, Call.ReadFileFromUserHomeDir (env.GetString s.viper "tokenfile"),
          Call.NewImmuClient opts] := by
      rw [hconn]
      by_cases hn : (env.NewImmuClient opts).2 ≠ none ∨ (env.NewImmuClient opts).1 = none
      · rw [if_pos hn]
        simp [Outcome.state]
      · rw [if_neg hn]
        simp [Outcome.state]
    refine ⟨opts, hcalls, ?_, ?_, ?_⟩
    · rw [hopts]
      by_cases hr : (env.ReadFileFromUserHomeDir (env.GetString s.viper "tokenfile")).2 ≠ none ∨
          (env.ReadFileFromUserHomeDir (env.GetString s.viper "tokenfile")).1 = ""
      · rw [if_pos hr]
        have hd : decide ((env.ReadFileFromUserHomeDir
            (env.GetString s.viper "tokenfile")).2 = none ∧
            (env.ReadFileFromUserHomeDir (env.GetString s.viper "tokenfile")).1 ≠ "") =
              false := by
          rw [decide_eq_false_iff_not]
          rintro ⟨h1, h2⟩
          rcases hr with hr | hr
          · exact hr h1
          · exact h2 hr
        rw [hd]
        rfl
      · rw [if_neg hr]
        have hd : decide ((env.ReadFileFromUserHomeDir
            (env.GetString s.viper "tokenfile")).2 = none ∧
            (env.ReadFileFromUserHomeDir (env.GetString s.viper "tokenfile")).1 ≠ "") =
              true := by
          rw [decide_eq_true_iff]
          push_neg at hr
          exact hr
        rw [hd]
        rfl
    · intro r
      rw [hconn]
      by_cases hn : (env.NewImmuClient opts).2 ≠ none ∨ (env.NewImmuClient opts).1 = none
      · rw [if_pos hn]
        constructor
        · rintro ⟨t, ht⟩
          cases ht
        · rintro ⟨h1, -⟩
          exact absurd hn h1
      · rw [if_neg hn]
        constructor
        · rintro ⟨t, ht⟩
          injection ht with h1 h2
          exact ⟨hn, h1.symm⟩
        · rintro ⟨-, h1⟩
          exact ⟨_, by rw [h1]⟩
    · intro m
      rw [hconn]
      by_cases hn : (env.NewImmuClient opts).2 ≠ none ∨ (env.NewImmuClient opts).1 = none
      · rw [if_pos hn]
        constructor
        · rintro ⟨t, ht⟩
          injection ht with h1 h2
          exact ⟨hn, h1.symm⟩
        · rintro ⟨-, h1⟩
          exact ⟨_, by rw [h1]⟩
      · rw [if_neg hn]
        constructor
        · rintro ⟨t, ht⟩
          cases ht
        · rintro ⟨h1, -⟩
          exact absurd h1 hn
  have htok := (hagree "tokenfile" (by decide)).2.1
  have hport := (hagree "immudb-port" (by decide)).1
  have haddr := (hagree "immudb-address" (by decide)).2.1
  have hmtls := (hagree "mtls" (by decide)).2.2
  have hsn := (hagree "servername" (by decide)).2.1
  have hcert := (hagree "certificate" (by decide)).2.1
  have hpkey := (hagree "pkey" (by decide)).2.1
  have hcas := (hagree "clientcas" (by decide)).2.1
  have hvo := (hagree "value-only" (by decide)).2.2
  obtain ⟨o1, hc1, ho1, hret1, hexit1⟩ := key env1 cl1 s1
  obtain ⟨o2, hc2, ho2, hret2, hexit2⟩ := key env2 cl2 s2
  have hsame : env1 = env2 → o1 = o2 := by
    intro he
    subst he
    rw [ho1, ho2]
    simp only [hread]
    simp only [htok, hport, haddr, hmtls, hsn, hcert, hpkey, hcas]
  refine ⟨by decide, by decide, _, o1, o2, hc1, by rw [hc2, htok], ?_, ?_, ?_, ?_, ?_, ?_,
    hsame, ?_⟩
  · rw [ho1, ho2]
    simp only [hread]
  · rw [ho1, ho2]
    exact hport
  · rw [ho1, ho2]
    exact haddr
  · rw [ho1, ho2]
    exact htok
  · rw [ho1, ho2]
    exact hmtls
  · rw [ho1, ho2]
    simp only [hmtls, hsn, hcert, hpkey, hcas]
  · intro he hcl
    have ho := hsame he
    subst he hcl ho
    constructor
    · intro r
      rw [hret1 r, hret2 r, hvo]
    · intro m
      rw [hexit1 m, hexit2 m]

/-- C8 on two stores that name the same token file and differ on `auth`: both
runs pass `Auth = true` and return the same session. -/
theorem connect_auth_ignores_auth_key_witness :
    exampleEnv.GetBool (stateWith [("tokenfile", .str "token"), ("auth", .bool false)]).viper
        "auth" ≠
      exampleEnv.GetBool (stateWith [("tokenfile", .str "token"), ("auth", .bool true)]).viper
        "auth" ∧
    "auth" ∉ connectKeys ∧
    (∀ k ∈ connectKeys, k.data.map Char.toLower ≠ "auth".data) ∧
    ∃ name o1 o2,
      (connect exampleEnv (commandlineWith none)
        (stateWith [("tokenfile", .str "token"), ("auth", .bool false)])).state.calls =
          (stateWith [("tokenfile", .str "token"), ("auth", .bool false)]).calls ++
          [Call.options, Call.ReadFileFromUserHomeDir name, Call.NewImmuClient o1] ∧
      (connect exampleEnv (commandlineWith none)
        (stateWith [("tokenfile", .str "token"), ("auth", .bool true)])).state.calls =
          (stateWith [("tokenfile", .str "token"), ("auth", .bool true)]).calls ++
          [Call.options, Call.ReadFileFromUserHomeDir name, Call.NewImmuClient o2] ∧
      o1.Auth = o2.Auth ∧ o1.Port = o2.Port ∧ o1.Address = o2.Address ∧
      o1.TokenFileName = o2.TokenFileName ∧ o1.MTLs = o2.MTLs ∧
      o1.MTLsOptions = o2.MTLsOptions ∧
      (exampleEnv = exampleEnv → o1 = o2) ∧
      (exampleEnv = exampleEnv → commandlineWith none = commandlineWith none →
        (∀ r, (∃ t, connect exampleEnv (commandlineWith none)
              (stateWith [("tokenfile", .str "token"), ("auth", .bool false)]) = .ret r t) ↔
            (∃ t, connect exampleEnv (commandlineWith none)
              (stateWith [("tokenfile", .str "token"), ("auth", .bool true)]) = .ret r t)) ∧
        (∀ n, (∃ t, connect exampleEnv (commandlineWith none)
              (stateWith [("tokenfile", .str "token"), ("auth", .bool false)]) = .exit n t) ↔
            (∃ t, connect exampleEnv (commandlineWith none)
              (stateWith [("tokenfile", .str "token"), ("auth", .bool true)]) = .exit n t))) :=
  ⟨by decide,
    connect_auth_ignores_auth_key exampleEnv exampleEnv (commandlineWith none)
      (commandlineWith none)
      (stateWith [("tokenfile", .str "token"), ("auth", .bool false)])
      (stateWith [("tokenfile", .str "token"), ("auth", .bool true)])
      (by decide) rfl⟩

/-! ## How often the options are built -/

/-- C9 fails as stated: in the run of `Init` and `connect` from the fresh state
`options` is called twice, and the options that `connect` passes to
`client.NewImmuClient` differ from the value `options` returned to it: `Auth`
was false and is true. -/
theorem options_once_immutable_counterexample :
    (initThenConnect exampleEnv freshState).state.calls.count Call.options = 2 ∧
    ∃ cl s1 o s2, Init exampleEnv freshState = .ret cl s1 ∧
      options exampleEnv s1 = .ret o s2 ∧ o.Auth = false ∧
      Call.NewImmuClient { o with Auth := true } ∈ (connect exampleEnv cl s1).state.calls ∧
      Call.NewImmuClient o ∉ (connect exampleEnv cl s1).state.calls :=
  ⟨by decide, _, _, _, _, rfl, rfl, rfl, by decide, by decide⟩

/-- C9 as amended: when `Init` returns, it has called `options` once, after
`configureOptions`, and stored the value that call returned in `cl.options`;
`connect` then calls `options` a second time, so the run of `Init` and
`connect` calls it twice; the options that `connect` passes to
`client.NewImmuClient` are those `options` returned to it with the one field
`Auth` assigned, to true exactly when the token-file read returned no error and
a non-empty string; and `connect` leaves `cl.options` as `Init` set it. -/
theorem options_built_by_init_and_by_connect (env : Env) (s s1 : State) (cl : commandline)
    (h : Init env s = .ret cl s1) :
    ∃ s0 o0 s0' o s2,
      configureOptions env s = .ret none s0 ∧
      s0.calls.count Call.options = s.calls.count Call.options ∧
      options env s0 = .ret o0 s0' ∧
      cl.options = some o0 ∧
      s1.calls = s0.calls ++ [Call.options] ∧
      s1.calls.count Call.options = s.calls.count Call.options + 1 ∧
      options env s1 = .ret o s2 ∧
      (connect env cl s1).state.calls = s1.calls ++
        [Call.options, Call.ReadFileFromUserHomeDir o.TokenFileName,
          Call.NewImmuClient { o with
            Auth := decide ((env.ReadFileFromUserHomeDir o.TokenFileName).2 = none ∧
              (env.ReadFileFromUserHomeDir o.TokenFileName).1 ≠ "") }] ∧
      (initThenConnect env s).state.calls.count Call.options =
        s.calls.count Call.options + 2 ∧
      (∀ cl1 err s3, connect env cl s1 = .ret (cl1, err) s3 → cl1.options = some o0) := by
  have hinit : ∃ s0 o0 s0', configureOptions env s = .ret none s0 ∧
      options env s0 = .ret o0 s0' ∧ cl.options = some o0 ∧
      s1.calls = s0.calls ++ [Call.options] := by
    cases hc : configureOptions env s with
    | ret r s0 =>
      cases r with
      | none =>
        obtain ⟨o0, s0', ho0, hi⟩ := Init_of_ok env s s0 hc
        rw [hi] at h
        injection h with h1 h2
        subst h1 h2
        exact ⟨s0, o0, s0', rfl, ho0, rfl, rfl⟩
      | some e =>
        rw [Init_of_error env s s0 e hc] at h
        cases h
    | exit n s0 =>
      rw [Init_of_exit env s s0 n hc] at h
      cases h
    | panicked s0 =>
      rw [Init_of_panicked env s s0 hc] at h
      cases h
  obtain ⟨s0, o0, s0', hc, ho0, hcl, hcalls⟩ := hinit
  obtain ⟨-, -, hcount⟩ := configureOptions_frame env s s0 none hc
  obtain ⟨o, s2, opts, n, ho, hs2, hopts, -, hconn⟩ := connect_cases env cl s1
  have hs1count : s1.calls.count Call.options = s.calls.count Call.options + 1 := by
    rw [hcalls, List.count_append, hcount]
    rfl
  have hconncalls : (connect env cl s1).state.calls = s1.calls ++
      [Call.options, Call.ReadFileFromUserHomeDir o.TokenFileName, Call.NewImmuClient opts] := by
    rw [hconn, hs2]
    by_cases hn : n.2 ≠ none ∨ n.1 = none
    · rw [if_pos hn]
      simp [Outcome.state]
    · rw [if_neg hn]
      simp [Outcome.state]
  have hopts2 : opts = { o with
      Auth := decide ((env.ReadFileFromUserHomeDir o.TokenFileName).2 = none ∧
        (env.ReadFileFromUserHomeDir o.TokenFileName).1 ≠ "") } := by
    rw [hopts]
    by_cases hr : (env.ReadFileFromUserHomeDir o.TokenFileName).2 ≠ none ∨
        (env.ReadFileFromUserHomeDir o.TokenFileName).1 = ""
    · rw [if_pos hr]
      have hd : decide ((env.ReadFileFromUserHomeDir o.TokenFileName).2 = none ∧
          (env.ReadFileFromUserHomeDir o.TokenFileName).1 ≠ "") = false := by
        rw [decide_eq_false_iff_not]
        rintro ⟨h1, h2⟩
        rcases hr with hr | hr
        · exact hr h1
        · exact h2 hr
      rw [hd]
    · rw [if_neg hr]
      have hd : decide ((env.ReadFileFromUserHomeDir o.TokenFileName).2 = none ∧
          (env.ReadFileFromUserHomeDir o.TokenFileName).1 ≠ "") = true := by
        rw [decide_eq_true_iff]
        push_neg at hr
        exact hr
      rw [hd]
  refine ⟨s0, o0, s0', o, s2, hc, hcount, ho0, hcl, hcalls, hs1count, ho, ?_, ?_, ?_⟩
  · rw [← hopts2]
    exact hconncalls
  · have hrun : initThenConnect env s = connect env cl s1 := by
      simp only [initThenConnect, Proc.bind_apply, Proc.andThen, h]
    rw [hrun, hconncalls, List.count_append, hs1count]
    simp [List.count_cons]
  · intro cl1 err s3 hret
    rw [hconn] at hret
    by_cases hn : n.2 ≠ none ∨ n.1 = none
    · rw [if_pos hn] at hret
      cases hret
    · rw [if_neg hn] at hret
      injection hret with h1 h2
      injection h1 with h3 h4
      subst h3
      exact hcl

/-- C9 as amended, on the fresh state with gateway defaults that differ from
the client defaults: `Init` stores the options built from the resolved gateway
address and port, not the default options of the client package. -/
theorem options_built_by_init_and_by_connect_witness :
    Init gatewayEnv freshState = .ret gatewayCommandline (Init gatewayEnv freshState).state ∧
    gatewayCommandline.options ≠ some (DefaultOptions gatewayEnv) ∧
    ∃ s0 o0 s0' o s2,
      configureOptions gatewayEnv freshState = .ret none s0 ∧
      s0.calls.count Call.options = freshState.calls.count Call.options ∧
      options gatewayEnv s0 = .ret o0 s0' ∧
      gatewayCommandline.options = some o0 ∧
      (Init gatewayEnv freshState).state.calls = s0.calls ++ [Call.options] ∧
      (Init gatewayEnv freshState).state.calls.count Call.options =
        freshState.calls.count Call.options + 1 ∧
      options gatewayEnv (Init gatewayEnv freshState).state = .ret o s2 ∧
      (connect gatewayEnv gatewayCommandline (Init gatewayEnv freshState).state).state.calls =
        (Init gatewayEnv freshState).state.calls ++
          [Call.options, Call.ReadFileFromUserHomeDir o.TokenFileName,
            Call.NewImmuClient { o with
              Auth := decide ((gatewayEnv.ReadFileFromUserHomeDir o.TokenFileName).2 = none ∧
                (gatewayEnv.ReadFileFromUserHomeDir o.TokenFileName).1 ≠ "") }] ∧
      (initThenConnect gatewayEnv freshState).state.calls.count Call.options =
        freshState.calls.count Call.options + 2 ∧
      (∀ cl1 err s3,
        connect gatewayEnv gatewayCommandline (Init gatewayEnv freshState).state =
            .ret (cl1, err) s3 → cl1.options = some o0) :=
  ⟨rfl, by decide,
    options_built_by_init_and_by_connect gatewayEnv freshState
      (Init gatewayEnv freshState).state gatewayCommandline rfl⟩

/-! ## The flag of the `auth` key -/

/-- C10, evaluated: on a command without flags, whatever the environment, the
flag set that `configureOptions` leaves holds a flag for every bound key but
`auth`, for which `Lookup` gives nil; and with a viper that accepts every
binding, `viper.BindPFlag` is called for `auth` with that nil flag. -/
theorem configureOptions_auth_flag_undefined (env : Env) :
    boundKeys.filter (fun k =>
        ((configureOptions env freshState).state.cmd.PersistentFlags.Lookup k).isNone) =
      ["auth"] ∧
    Call.BindPFlag "auth" none ∈ (configureOptions exampleEnv freshState).state.calls := by
  constructor
  · obtain ⟨r2, s2, hr2, hcmd, -⟩ := bindFlagsThen_setDefaults_frame env boundKeys
      { freshState with
        cmd := ⟨⟨[⟨"immudb-port", "p", .int env.gwImmudbPort⟩,
          ⟨"immudb-address", "a", .str env.gwImmudbAddress⟩,
          ⟨"config", "", .str ""⟩,
          ⟨"tokenfile", "", .str (DefaultOptions env).TokenFileName⟩,
          ⟨"mtls", "m", .bool (DefaultOptions env).MTLs⟩,
          ⟨"servername", "", .str (DefaultMTLsOptions env).Servername⟩,
          ⟨"certificate", "", .str (DefaultMTLsOptions env).Certificate⟩,
          ⟨"pkey", "", .str (DefaultMTLsOptions env).Pkey⟩,
          ⟨"clientcas", "", .str (DefaultMTLsOptions env).ClientCAs⟩,
          ⟨"value-only", "", .bool false⟩]⟩, []⟩ }
    rw [configureOptions_blocks, defineFlagsThen_fresh, hr2]
    simp only [Outcome.state, hcmd]
    rfl
  · decide

end Immuclient
